import Mathlib

/-!
Verification of the asynchronous job subsystem of the Aura Clip application
(`src/app.py`).  The Python code is shallowly embedded: pure helpers become
Lean functions over `ℚ` (Python floats are modelled as exact rationals),
fallible operations return `Except`, and the caller-visible Qt state is an
explicit record acted on by transition functions.  Each claim about the
program is then settled as a theorem about these definitions.
-/

namespace AuraClip

/-! ## Basic value model -/

/-- A row of the scene `QListWidget`: a check state and the
`Qt.ItemDataRole.UserRole` payload `(start_s, end_s)` (`none` models the
placeholder row whose data is `None`). -/
structure SceneRow where
  checked : Bool
  data : Option (ℚ × ℚ)
deriving DecidableEq, Repr

/-- Embedding of `AuraClipApp._clamp_range`: clamp `[start_s, end_s]` into
`[0, duration]` and swap the endpoints if the clamped pair is inverted. -/
def clampRange (start_s end_s duration : ℚ) : ℚ × ℚ :=
  let s := max 0 (min start_s duration)
  let e := max 0 (min end_s duration)
  if e < s then (e, s) else (s, e)

/-- The per-row body of the `_collect_valid_selections` loop: a checked row
carrying data is clamped and kept when its clamped length exceeds `0.05`. -/
def selFilter (duration : ℚ) (p : ℕ × SceneRow) : Option (ℕ × ℚ × ℚ) :=
  match p.2.data, p.2.checked with
  | some d, true =>
      let c := clampRange d.1 d.2 duration
      if (0.05 : ℚ) < c.2 - c.1 then some (p.1, c.1, c.2) else none
  | _, _ => none

/-- Embedding of `AuraClipApp._collect_valid_selections`: walk the scene-list
rows in index order, keep the checked rows that carry data, clamp each to the
media duration and drop ranges of length at most `0.05`.  (The early
message-box branches of the Python function both return the empty list, which
is what the embedding produces on those inputs as well.) -/
def collectValidSelections (rows : List SceneRow) (duration : ℚ) :
    List (ℕ × ℚ × ℚ) :=
  rows.enum.filterMap (selFilter duration)

/-! ## Timecode normalisation (`AuraClipApp._to_seconds`) -/

/-- A Python value as seen by `_to_seconds`: `getSeconds` is `some v` when
`float(tc.get_seconds())` evaluates to `v` without raising, and `asFloat` is
`some v` when `float(tc)` evaluates to `v` without raising. -/
structure PyTimecode where
  getSeconds : Option ℚ
  asFloat : Option ℚ
deriving DecidableEq, Repr

/-- Embedding of `AuraClipApp._to_seconds`: try `float(tc.get_seconds())`,
fall back to `float(tc)`, and fall back to `0.0` when both raise. -/
def toSeconds (tc : PyTimecode) : ℚ :=
  match tc.getSeconds with
  | some v => v
  | none =>
      match tc.asFloat with
      | some v => v
      | none => 0

/-! ## The ffmpeg slice helper (`AuraClipApp._run_ffmpeg_slice`) -/

/-- Result of a completed `subprocess.run` of ffmpeg: the exit code and the
captured standard-error text (`none` models `proc.stderr is None`). -/
structure ProcResult where
  returncode : ℤ
  stderr : Option String
deriving DecidableEq, Repr

/-- Whitespace characters stripped by Python's `str.strip()` (ASCII part). -/
def isPySpace (c : Char) : Bool :=
  c = ' ' || c = '\t' || c = '\n' || c = '\r' || c = '\x0b' || c = '\x0c'

/-- Embedding of Python's `str.strip()`: drop leading and trailing
whitespace. -/
def pyStrip (s : String) : String :=
  ⟨((s.data.dropWhile isPySpace).reverse.dropWhile isPySpace).reverse⟩

/-- Embedding of `AuraClipApp._run_ffmpeg_slice`.  `invoke` is the outcome of
`subprocess.run` on the constructed command (`Except.error` models the call
raising, whose formatted message is the carried string); `fsSize dst` is the
size of the destination file after the process ran (`none` when
`os.path.exists(dst)` is false).  Success requires a zero exit code and an
existing, non-empty destination; the diagnostic is the stripped stderr. -/
def runFfmpegSlice (fsSize : String → Option ℕ)
    (invoke : Except String ProcResult)
    (_src : String) (_start_s _end_s : ℚ) (dst : String) : Bool × String :=
  match invoke with
  | .ok proc =>
      let ok := proc.returncode == 0 && (fsSize dst).isSome &&
        ((fsSize dst).getD 0 > 0)
      (ok, pyStrip (proc.stderr.getD ""))
  | .error e => (false, e)

/-! ## Export file naming (`_export_job`, filename construction) -/

/-- Big-endian decimal digit list of `n`, with `0` rendered as `[0]` — the
digit sequence of Python's `str(n)`. -/
def numStr (n : ℕ) : List ℕ :=
  if n = 0 then [0] else (Nat.digits 10 n).reverse

/-- Embedding of Python's format spec `{n:0{pad}d}` at digit level: left-pad
the decimal digits of `n` with zeros to a minimum width of `pad`. -/
def padDigits (pad n : ℕ) : List ℕ :=
  List.replicate (pad - (numStr n).length) 0 ++ numStr n

/-- Value of a big-endian digit list (used to show padding is faithful). -/
def ofDigitsBE : List ℕ → ℕ
  | [] => 0
  | d :: t => d * 10 ^ t.length + ofDigitsBE t

/-- The character of a decimal digit. -/
def digitChar (d : ℕ) : Char :=
  match d with
  | 0 => '0' | 1 => '1' | 2 => '2' | 3 => '3' | 4 => '4'
  | 5 => '5' | 6 => '6' | 7 => '7' | 8 => '8' | 9 => '9'
  | _ => '*'

/-- The characters of the output filename
`f"{basename}_scene_{scene_num:0{pad}d}.mp4"` built inside `_export_job`. -/
def sceneFileChars (basename : List Char) (pad scene_num : ℕ) : List Char :=
  basename ++ "_scene_".data ++ (padDigits pad scene_num).map digitChar
    ++ ".mp4".data

/-- The output filename as a string. -/
def sceneFileName (basename : String) (pad scene_num : ℕ) : String :=
  ⟨sceneFileChars basename.data pad scene_num⟩

/-- Embedding of `os.path.join(export_dir, name)` on POSIX paths. -/
def pathJoin (dir name : String) : String :=
  dir ++ "/" ++ name

/-- The zero-pad width `pad = max(2, len(str(scene_count)))` computed by
`_export_job`. -/
def exportPad (scene_count : ℕ) : ℕ :=
  max 2 (numStr scene_count).length

/-! ## The export job body (`_export_job`) -/

/-- One progress payload emitted by `_export_job` via `report`: the dict
`{phase, done, total}` (initial event) or `{phase, done, total, last_ok,
scene}` (per-item event). -/
structure ExportEv where
  phase : String
  done : ℕ
  total : ℕ
  last_ok : Option Bool
  scene : Option ℕ
deriving DecidableEq, Repr

/-- A failure entry `(scene_num, start_s, end_s, stderr_text)` collected into
the `errors` list of `_export_job`. -/
abbrev ExportErr := ℕ × ℚ × ℚ × String

/-- The dict returned by `_export_job`. -/
structure ExportResult where
  requested : ℕ
  ok : ℕ
  failed : ℕ
  errors : List ExportErr
  elapsed_s : ℚ
  export_dir : String
deriving DecidableEq, Repr

/-- The `for (idx, start_s, end_s) in selections` loop of `_export_job`.
`slice src s e dst` is the provided `run_ffmpeg_slice` helper; `done` is the
running counter.  Returns the number of successes, the failure entries in
encounter order, the per-item progress events in emission order, and the
trace of `(start_s, end_s, out_path)` slice invocations. -/
def exportLoop (slice : String → ℚ → ℚ → String → Bool × String)
    (src_file export_dir basename : String) (pad total : ℕ) :
    List (ℕ × ℚ × ℚ) → ℕ → ℕ × List ExportErr × List ExportEv ×
      List (ℚ × ℚ × String)
  | [], _ => (0, [], [], [])
  | sel :: rest, done =>
      let scene_num := sel.1 + 1
      let out_path := pathJoin export_dir (sceneFileName basename pad scene_num)
      let r := slice src_file sel.2.1 sel.2.2 out_path
      let acc := exportLoop slice src_file export_dir basename pad total rest
        (done + 1)
      ((if r.1 then 1 else 0) + acc.1,
       (if r.1 then [] else [(scene_num, sel.2.1, sel.2.2, r.2)]) ++ acc.2.1,
       ⟨"export", done + 1, total, some r.1, some scene_num⟩ :: acc.2.2.1,
       (sel.2.1, sel.2.2, out_path) :: acc.2.2.2)

/-- Embedding of `_export_job`.  `elapsed` is the wall-clock reading
(`time.perf_counter` deltas are opaque to the model).  Returns the full
progress-event list, the trace of slice invocations, and the result dict. -/
def exportJob (slice : String → ℚ → ℚ → String → Bool × String)
    (scene_count : ℕ) (basename src_file : String)
    (selections : List (ℕ × ℚ × ℚ)) (_duration : ℚ) (export_dir : String)
    (elapsed : ℚ) :
    List ExportEv × List (ℚ × ℚ × String) × ExportResult :=
  let pad := exportPad scene_count
  let total := selections.length
  let r := exportLoop slice src_file export_dir basename pad total selections 0
  (⟨"export", 0, total, none, none⟩ :: r.2.2.1,
   r.2.2.2,
   { requested := total, ok := r.1, failed := r.2.1.length, errors := r.2.1,
     elapsed_s := elapsed, export_dir := export_dir })

/-! ## The detection job body (`_detect_job`) -/

/-- One progress payload emitted by `_detect_job`: the dict
`{phase, mode}` or `{phase, mode, elapsed_s}`. -/
structure DetectEv where
  phase : String
  mode : String
  elapsed_s : Option ℚ
deriving DecidableEq, Repr

/-- The dict returned by `_detect_job` on success. -/
structure DetectPayload where
  scenes : List (ℚ × ℚ)
  threshold : ℚ
  elapsed_s : ℚ
deriving DecidableEq, Repr

/-- Embedding of `_detect_job`.  `collab` is the outcome of the PySceneDetect
collaborator calls (`Except.error` models any exception raised by them, with
the carried string standing for the exception); scene timecodes are carried
as second pairs.  The function returns the progress events it emitted, in
order, and its result: the payload dict or the propagated exception.  The
unsupported-API branch raises `RuntimeError`. -/
def detectJob (api : String) (collab : Except String (List (ℚ × ℚ)))
    (threshold elapsed : ℚ) :
    List DetectEv × Except String DetectPayload :=
  let startEv : DetectEv := ⟨"detect", "start", none⟩
  if api = "v0.6+" ∨ api = "v0.5" then
    match collab with
    | .ok scenes =>
        ([startEv, ⟨"detect", "end", some elapsed⟩],
         .ok ⟨scenes, threshold, elapsed⟩)
    | .error e => ([startEv], .error e)
  else
    ([startEv], .error "RuntimeError: Unsupported PySceneDetect API version.")

/-! ## The worker wrapper (`Worker.run`) -/

/-- An entry of the signal trace a `Worker` produces: a `progress` emission
or the single `finished` emission (which carries the job's result, or the
exception the job raised). -/
inductive TraceItem (ev α : Type) where
  | progress (e : ev)
  | finished (r : Except String α)

/-- Embedding of `Worker.run`: the job body runs (emitting its progress
events through the connected signal) and `finished` is emitted exactly once
afterwards — with the result on normal return, or with the caught exception.
The argument packages the job body's emissions and outcome. -/
def workerRun {ev α : Type} (job : List ev × Except String α) :
    List (TraceItem ev α) :=
  job.1.map .progress ++ [.finished job.2]

/-- Whether a trace entry is the terminal `finished` emission. -/
def isTerminal {ev α : Type} : TraceItem ev α → Bool
  | .finished _ => true
  | .progress _ => false

/-! ## Run logging (`AuraClipApp._log_run`) -/

/-- A JSON value as classified by the `logs = json.load(f) or []` line: a
JSON array (holding the prior entries), a truthy non-array value (dict,
non-empty string, non-zero number, …), or a falsy value (`null`, `0`, `""`,
`false`; an empty array also lands in the `jarr []` case with the same
effect). -/
inductive JsonVal where
  | jarr (entries : List String)
  | truthyNonArray
  | falsy
deriving DecidableEq, Repr

/-- The durable state and the failure environment `_log_run` runs against.
`jsonFile`: `none` when the structured store is missing, `some none` when
opening or parsing it raises (unreadable / corrupt), `some (some v)` when it
parses to `v`.  `csvRows` is the tabular store (`none` = missing, so the
header still has to be written).  The `…Fails` flags inject I/O failures
into `os.makedirs` and the two writes. -/
structure LogFS where
  jsonFile : Option (Option JsonVal)
  csvRows : Option (List String)
  mkdirFails : Bool
  jsonWriteFails : Bool
  csvWriteFails : Bool
deriving DecidableEq, Repr

/-- Embedding of `AuraClipApp._log_run` for one record `entry` (the
timestamped dict is opaque to the model).  The whole body sits in a
`try/except` that swallows every exception and prints a warning, so the
embedding is a total function returning the filesystem as left behind plus
`some diagnostic` when an exception was swallowed (`none` on full success).
Inside the body: a missing, unreadable or unparseable structured store — and
a falsy parse — yield `logs = []`; a truthy non-array parse survives
`or []` and makes `logs.append` raise; then the JSON store is rewritten
whole and a row is appended to the CSV store (header first if absent). -/
def logRun (fs : LogFS) (entry : String) : LogFS × Option String :=
  if fs.mkdirFails then (fs, some "makedirs raised")
  else
    let logsE : Except String (List String) :=
      match fs.jsonFile with
      | some (some (.jarr l)) => .ok l
      | some (some .truthyNonArray) => .error "AttributeError: append"
      | _ => .ok []
    match logsE with
    | .error e => (fs, some e)
    | .ok logs =>
        if fs.jsonWriteFails then (fs, some "json open for write raised")
        else
          let fs1 := { fs with
            jsonFile := some (some (.jarr (logs ++ [entry]))) }
          if fs1.csvWriteFails then (fs1, some "csv open for append raised")
          else
            ({ fs1 with csvRows := some (fs1.csvRows.getD [] ++ [entry]) },
             none)

/-! ## Caller-visible state (`AuraClipApp`, detect/export submission) -/

/-- The slice of `AuraClipApp` state the submission paths read and write:
the loaded file, collaborator availability, the scene list rows, the menu
triggers, the busy indicators, and counters for live worker threads, armed
watchdog timers and written run-log entries. -/
structure AppState where
  current_file : Option String
  scenedetect_available : Bool
  ffmpeg_ok : Bool
  media_duration : ℚ
  has_scenes : Bool
  scene_rows : List SceneRow
  detect_enabled : Bool
  export_enabled : Bool
  progress_visible : Bool
  cursor_depth : ℕ
  status : String
  detect_workers : ℕ
  export_workers : ℕ
  detect_timers : ℕ
  export_timers : ℕ
  export_dir_writable : Bool
  detect_log_count : ℕ
  export_log_count : ℕ
deriving DecidableEq, Repr

/-- The synchronous result of a call to `detect_scenes` / `export_clips`:
which early-return branch fired, or `started` when a worker thread was
spawned.  `alreadyRunning` is the rejection the specification describes; it
is part of the type so that its absence from the code is a statable fact. -/
inductive SubmitOutcome where
  | started
  | noFile
  | missingLib
  | noScenes
  | ffmpegMissing
  | badDuration
  | nothingValid
  | notWritable
  | alreadyRunning
deriving DecidableEq, Repr

/-- Embedding of the synchronous part of `AuraClipApp.detect_scenes`: the
two precondition checks, then busy feedback (`_progress_busy`, disabling
both triggers, pushing the wait cursor), spawning the worker thread and
arming the 60-second `QTimer.singleShot` watchdog.  There is no check
against an already-running detection: the function unconditionally starts a
new worker once the preconditions pass. -/
def detectScenes (st : AppState) : AppState × SubmitOutcome :=
  if st.current_file.isNone then (st, .noFile)
  else if !st.scenedetect_available then (st, .missingLib)
  else
    ({ st with
        status := "Detecting scenes... please wait.",
        progress_visible := true,
        detect_enabled := false,
        export_enabled := false,
        cursor_depth := st.cursor_depth + 1,
        detect_workers := st.detect_workers + 1,
        detect_timers := st.detect_timers + 1 }, .started)

/-- Embedding of the `QTimer.singleShot(60000, …)` lambda armed by
`detect_scenes`: `_progress_done("Detection timed out.")`, restore the
override cursor, re-enable Detect, and re-enable Export when a file is
loaded.  Nothing here consults whether the job already delivered its
outcome, and the worker itself is untouched. -/
def detectWatchdogFire (st : AppState) : AppState :=
  { st with
      status := "Detection timed out.",
      progress_visible := false,
      cursor_depth := st.cursor_depth - 1,
      detect_enabled := true,
      export_enabled := st.current_file.isSome }

/-- Embedding of the `on_finished` closure of `detect_scenes` (plus the
`thread.quit` teardown): restore the busy UI, re-enable the triggers, and
— on a successful payload — replace the scene rows (clamping when a positive
duration is cached) and append one detection run-log entry; an empty scene
list installs the non-checkable placeholder row and logs nothing, and an
exception payload only shows the error dialog. -/
def onDetectFinished (st : AppState)
    (payload : Except String DetectPayload) : AppState :=
  let st' := { st with
    status := "Detection done! Review scenes, then Export",
    progress_visible := false,
    cursor_depth := st.cursor_depth - 1,
    detect_enabled := true,
    export_enabled := st.current_file.isSome,
    detect_workers := st.detect_workers - 1 }
  match payload with
  | .error _ => st'
  | .ok p =>
      if p.scenes.isEmpty then
        { st' with has_scenes := false, scene_rows := [⟨false, none⟩] }
      else
        { st' with
            has_scenes := true,
            scene_rows := p.scenes.map fun sc =>
              let c := if 0 < st.media_duration then
                clampRange sc.1 sc.2 st.media_duration else (sc.1, sc.2)
              ⟨false, some c⟩,
            detect_log_count := st.detect_log_count + 1 }

/-- Embedding of the synchronous part of `AuraClipApp.export_clips`: the
precondition ladder (file loaded, scenes present, ffmpeg runnable, usable
duration, non-empty validated selection, writable export directory), then
busy feedback and spawning the worker thread.  No watchdog timer is armed on
this path, and there is no check against an already-running export. -/
def exportClips (st : AppState) : AppState × SubmitOutcome :=
  if st.current_file.isNone then
    ({ st with detect_enabled := false, export_enabled := false }, .noFile)
  else if !st.has_scenes || st.scene_rows.isEmpty then (st, .noScenes)
  else if !st.ffmpeg_ok then (st, .ffmpegMissing)
  else if st.media_duration ≤ 0.05 then (st, .badDuration)
  else if (collectValidSelections st.scene_rows st.media_duration).isEmpty
    then (st, .nothingValid)
  else if !st.export_dir_writable then (st, .notWritable)
  else
    ({ st with
        status := "Exporting clips... please wait.",
        progress_visible := true,
        detect_enabled := false,
        export_enabled := false,
        cursor_depth := st.cursor_depth + 1,
        export_workers := st.export_workers + 1 }, .started)

/-- Embedding of the `on_finished` closure of `export_clips` (plus
teardown): restore the busy UI, re-enable both triggers, and — on a
successful payload — append one export run-log entry (an exception payload
only shows the error dialog).  The exported rows keep their check state and
data; only their display text changes. -/
def onExportFinished (st : AppState)
    (payload : Except String ExportResult) : AppState :=
  let st' := { st with
    status := "Export done! Clips saved to exports folder",
    progress_visible := false,
    cursor_depth := st.cursor_depth - 1,
    detect_enabled := true,
    export_enabled := true,
    export_workers := st.export_workers - 1 }
  match payload with
  | .error _ => st'
  | .ok _ => { st' with export_log_count := st.export_log_count + 1 }

/-! ## Concrete states used to evaluate the model -/

/-- The scene rows of the §8 scenario of the specification: three detected
scenes `(0,5)`, `(5,9)`, `(9,9.02)`, all checked. -/
def demoRows : List SceneRow :=
  [⟨true, some (0, 5)⟩, ⟨true, some (5, 9)⟩, ⟨true, some (9, 9.02)⟩]

/-- An idle application state with a file loaded, scenes detected and every
export precondition satisfied. -/
def readyState : AppState :=
  { current_file := some "clip.mp4"
    scenedetect_available := true
    ffmpeg_ok := true
    media_duration := 10
    has_scenes := true
    scene_rows := [⟨true, some (0, 5)⟩]
    detect_enabled := true
    export_enabled := true
    progress_visible := false
    cursor_depth := 0
    status := ""
    detect_workers := 0
    export_workers := 0
    detect_timers := 0
    export_timers := 0
    export_dir_writable := true
    detect_log_count := 0
    export_log_count := 0 }

/-- `readyState` with one detection worker already live (its submission
disabled the triggers, pushed the wait cursor and armed the watchdog). -/
def busyDetectState : AppState :=
  { readyState with
      detect_enabled := false
      export_enabled := false
      progress_visible := true
      cursor_depth := 1
      detect_workers := 1
      detect_timers := 1 }

/-- `readyState` with one export worker already live. -/
def busyExportState : AppState :=
  { readyState with
      detect_enabled := false
      export_enabled := false
      progress_visible := true
      cursor_depth := 1
      export_workers := 1 }

end AuraClip

namespace AuraClip

/-! ## Helper lemmas -/

/-- The clamped pair of `_clamp_range` lies in `[0, duration]` and is
ordered. -/
theorem clampRange_bounds (a b d : ℚ) (hd : 0 ≤ d) :
    0 ≤ (clampRange a b d).1 ∧ (clampRange a b d).2 ≤ d ∧
      (clampRange a b d).1 ≤ (clampRange a b d).2 := by
  simp only [clampRange]
  split
  next h =>
    exact ⟨le_max_left _ _, max_le hd (min_le_right _ _), le_of_lt h⟩
  next h =>
    exact ⟨le_max_left _ _, max_le hd (min_le_right _ _), not_lt.1 h⟩

/-- Characterisation of the per-row filter of the selection validator. -/
theorem selFilter_eq_some (duration : ℚ) (p : ℕ × SceneRow)
    (y : ℕ × ℚ × ℚ) :
    selFilter duration p = some y ↔
      ∃ d, p.2.data = some d ∧ p.2.checked = true ∧
        (0.05 : ℚ) < (clampRange d.1 d.2 duration).2 -
          (clampRange d.1 d.2 duration).1 ∧
        y = (p.1, (clampRange d.1 d.2 duration).1,
          (clampRange d.1 d.2 duration).2) := by
  rcases p with ⟨i, chk, data⟩
  rcases data with - | d
  · simp [selFilter]
  rcases chk with - | -
  · simp [selFilter]
  · simp only [selFilter]
    constructor
    · intro h
      split at h
      next hlong => exact ⟨d, rfl, trivial, hlong, (Option.some.inj h).symm⟩
      next => exact absurd h (by simp)
    · rintro ⟨d', hd', -, hlong, rfl⟩
      obtain rfl : d = d' := Option.some.inj hd'
      simp [hlong]

/-- The per-row filter of the selection validator never produces anything
from an unchecked or data-less row, and preserves the row index. -/
theorem selFilter_fst (duration : ℚ) (p : ℕ × SceneRow) (y : ℕ × ℚ × ℚ)
    (h : selFilter duration p = some y) : y.1 = p.1 := by
  obtain ⟨d, -, -, -, rfl⟩ := (selFilter_eq_some duration p y).1 h
  rfl

/-- Mapping first components over an index-preserving `filterMap` yields a
sublist of the original first components. -/
theorem filterMap_fst_sublist {α β : Type} (f : ℕ × α → Option (ℕ × β))
    (hf : ∀ p y, f p = some y → y.1 = p.1) :
    ∀ l : List (ℕ × α),
      List.Sublist ((l.filterMap f).map Prod.fst) (l.map Prod.fst)
  | [] => by simp
  | p :: l => by
    rw [List.filterMap_cons]
    cases h : f p with
    | none =>
        simpa using (filterMap_fst_sublist f hf l).cons p.1
    | some y =>
        simpa [hf p y h] using (filterMap_fst_sublist f hf l).cons₂ p.1

end AuraClip

namespace AuraClip

/-! ## Claim C3 — the selection validator -/

/-- C3: for every scene list, checked set and media duration, the selection
validator clamps each checked `(start, end)` into `[0, duration]`, swaps the
endpoints if clamping inverted them, drops every range of length at most
`0.05`, returns the survivors in original scene order, and is empty exactly
when no checked row survives (so it returns `[]` rather than raising). -/
theorem collectValidSelections_spec (rows : List SceneRow) (duration : ℚ)
    (hd : 0 ≤ duration) :
    (∀ x ∈ collectValidSelections rows duration,
        0 ≤ x.2.1 ∧ x.2.2 ≤ duration ∧ x.2.1 ≤ x.2.2 ∧
        (0.05 : ℚ) < x.2.2 - x.2.1 ∧
        ∃ row, rows.get? x.1 = some row ∧ row.checked = true ∧
          ∃ d, row.data = some d ∧
            (x.2.1, x.2.2) = clampRange d.1 d.2 duration) ∧
    ((collectValidSelections rows duration).map Prod.fst).Sorted (· < ·) ∧
    (collectValidSelections rows duration = [] ↔
      ∀ p ∈ rows.enum, ∀ d, p.2.data = some d → p.2.checked = true →
        (clampRange d.1 d.2 duration).2 - (clampRange d.1 d.2 duration).1
          ≤ 0.05) := by
  refine ⟨?_, ?_, ?_⟩
  · intro x hx
    rw [collectValidSelections, List.mem_filterMap] at hx
    obtain ⟨p, hp, hfp⟩ := hx
    obtain ⟨d, hdata, hchk, hlong, rfl⟩ :=
      (selFilter_eq_some duration p x).1 hfp
    obtain ⟨h1, h2, h3⟩ := clampRange_bounds d.1 d.2 duration hd
    exact ⟨h1, h2, h3, hlong, p.2,
      List.mem_enum_iff_get?.1 hp, hchk, d, hdata, rfl⟩
  · have hsub := filterMap_fst_sublist (selFilter duration)
      (selFilter_fst duration) rows.enum
    rw [List.enum_map_fst] at hsub
    exact (List.sorted_lt_range rows.length).sublist hsub
  · rw [collectValidSelections, List.filterMap_eq_nil_iff]
    constructor
    · intro h p hp d hdata hchk
      by_contra hlong
      have hsome : selFilter duration p = some (p.1,
          (clampRange d.1 d.2 duration).1,
          (clampRange d.1 d.2 duration).2) :=
        (selFilter_eq_some duration p _).2
          ⟨d, hdata, hchk, not_le.1 hlong, rfl⟩
      rw [h p hp] at hsome
      exact Option.noConfusion hsome
    · intro h p hp
      rcases hy : selFilter duration p with - | y
      · rfl
      obtain ⟨d, hdata, hchk, hlong, rfl⟩ :=
        (selFilter_eq_some duration p y).1 hy
      exact absurd (h p hp d hdata hchk) (not_le.2 hlong)

/-- Witness for C3 at the specification's §8 scenario: three scenes
`(0,5)`, `(5,9)`, `(9,9.02)` against duration `9.5`, all checked, yield two
selections (the `0.02`-second third scene is dropped) in scene order. -/
theorem collectValidSelections_spec_witness :
    collectValidSelections demoRows (9.5 : ℚ) = [(0, 0, 5), (1, 5, 9)] ∧
    ((collectValidSelections demoRows (9.5 : ℚ)).map Prod.fst).Sorted
      (· < ·) :=
  ⟨by norm_num [collectValidSelections, demoRows, selFilter, clampRange,
      List.enum, List.enumFrom, List.filterMap_cons, min_def, max_def],
   (collectValidSelections_spec demoRows 9.5 (by norm_num)).2.1⟩

/-! ## Claim C9 — the ffmpeg slice helper -/

/-- C9: a transcode invocation reports success iff the process exited with
code zero and the destination exists with non-zero size (so a zero-byte
output is never counted as successful), the diagnostic is the trimmed
stderr text, and a raising invocation reports failure with the exception
text. -/
theorem runFfmpegSlice_success_iff (fsSize : String → Option ℕ)
    (proc : ProcResult) (src : String) (a b : ℚ) (dst : String) :
    ((runFfmpegSlice fsSize (.ok proc) src a b dst).1 = true ↔
        proc.returncode = 0 ∧ ∃ sz, fsSize dst = some sz ∧ 0 < sz) ∧
    (runFfmpegSlice fsSize (.ok proc) src a b dst).2 =
      pyStrip (proc.stderr.getD "") ∧
    ∀ msg, runFfmpegSlice fsSize (.error msg) src a b dst = (false, msg) := by
  refine ⟨?_, rfl, fun _ => rfl⟩
  simp only [runFfmpegSlice, Bool.and_eq_true, beq_iff_eq, decide_eq_true_eq,
    gt_iff_lt]
  cases h : fsSize dst <;> simp [h, and_assoc]

/-! ## Claim C10 — the timecode normaliser -/

/-- C10: `_to_seconds` is total and follows the fallback chain — the value
of `get_seconds()` when that path succeeds, else the value of `float(input)`
when that succeeds, else `0.0`. -/
theorem toSeconds_total_cases (tc : PyTimecode) :
    (∀ v, tc.getSeconds = some v → toSeconds tc = v) ∧
    (tc.getSeconds = none → ∀ v, tc.asFloat = some v → toSeconds tc = v) ∧
    (tc.getSeconds = none → tc.asFloat = none → toSeconds tc = 0) := by
  refine ⟨?_, ?_, ?_⟩ <;> intros <;> simp [toSeconds, *]

/-- Witness for C10 at the three concrete input shapes. -/
theorem toSeconds_total_cases_witness :
    toSeconds ⟨some 3, some 7⟩ = 3 ∧ toSeconds ⟨none, some 7⟩ = 7 ∧
      toSeconds ⟨none, none⟩ = 0 :=
  ⟨(toSeconds_total_cases ⟨some 3, some 7⟩).1 3 rfl,
   (toSeconds_total_cases ⟨none, some 7⟩).2.1 rfl 7 rfl,
   (toSeconds_total_cases ⟨none, none⟩).2.2 rfl rfl⟩

/-! ## Export loop lemmas -/

/-- Successes plus failures of the export loop account for every selection. -/
theorem exportLoop_counts (slice : String → ℚ → ℚ → String → Bool × String)
    (src dir base : String) (pad total : ℕ) :
    ∀ (sels : List (ℕ × ℚ × ℚ)) (done : ℕ),
      (exportLoop slice src dir base pad total sels done).1 +
        (exportLoop slice src dir base pad total sels done).2.1.length =
        sels.length := by
  intro sels
  induction sels with
  | nil => intro done; rfl
  | cons sel rest ih =>
      intro done
      have ihd := ih (done + 1)
      simp only [exportLoop]
      rcases hb : (slice src sel.2.1 sel.2.2
          (pathJoin dir (sceneFileName base pad (sel.1 + 1)))).1 with - | - <;>
        simp [hb] <;> omega

/-- Every failure entry of the export loop records the 1-based ordinal,
bounds and diagnostic of a selection whose slice invocation failed. -/
theorem exportLoop_errors (slice : String → ℚ → ℚ → String → Bool × String)
    (src dir base : String) (pad total : ℕ) :
    ∀ (sels : List (ℕ × ℚ × ℚ)) (done : ℕ),
      ∀ en ∈ (exportLoop slice src dir base pad total sels done).2.1,
        ∃ sel ∈ sels,
          slice src sel.2.1 sel.2.2
              (pathJoin dir (sceneFileName base pad (sel.1 + 1))) =
            (false, en.2.2.2) ∧
          en = (sel.1 + 1, sel.2.1, sel.2.2, en.2.2.2) := by
  intro sels
  induction sels with
  | nil => intro done en hen; exact absurd hen (List.not_mem_nil en)
  | cons sel rest ih =>
      intro done en hen
      simp only [exportLoop] at hen
      rw [List.mem_append] at hen
      rcases hen with hen | hen
      · rcases hb : (slice src sel.2.1 sel.2.2
            (pathJoin dir (sceneFileName base pad (sel.1 + 1)))).1 with - | -
        · rw [hb, if_neg Bool.false_ne_true] at hen
          rcases List.mem_singleton.1 hen with rfl
          refine ⟨sel, List.mem_cons_self sel rest, ?_, rfl⟩
          have := Prod.mk.eta (p := slice src sel.2.1 sel.2.2
            (pathJoin dir (sceneFileName base pad (sel.1 + 1))))
          rw [← this, hb]
        · rw [hb, if_pos rfl] at hen
          exact absurd hen (List.not_mem_nil en)
      · obtain ⟨sel', hmem, hs⟩ := ih (done + 1) en hen
        exact ⟨sel', List.mem_cons_of_mem sel hmem, hs⟩

/-- When every slice invocation fails, the export loop counts no success. -/
theorem exportLoop_ok_zero (slice : String → ℚ → ℚ → String → Bool × String)
    (src dir base : String) (pad total : ℕ) :
    ∀ (sels : List (ℕ × ℚ × ℚ)) (done : ℕ),
      (∀ sel ∈ sels, (slice src sel.2.1 sel.2.2
          (pathJoin dir (sceneFileName base pad (sel.1 + 1)))).1 = false) →
      (exportLoop slice src dir base pad total sels done).1 = 0 := by
  intro sels
  induction sels with
  | nil => intro done _; rfl
  | cons sel rest ih =>
      intro done hall
      simp only [exportLoop, hall sel (List.mem_cons_self sel rest),
        if_neg Bool.false_ne_true, Nat.zero_add]
      exact ih (done + 1) fun s hs => hall s (List.mem_cons_of_mem sel hs)

/-- The per-item progress events of the export loop carry the running
counters `done+1, …, done+n` in order, with a fixed phase and total. -/
theorem exportLoop_events (slice : String → ℚ → ℚ → String → Bool × String)
    (src dir base : String) (pad total : ℕ) :
    ∀ (sels : List (ℕ × ℚ × ℚ)) (done : ℕ),
      ((exportLoop slice src dir base pad total sels done).2.2.1.map
          ExportEv.done) = List.range' (done + 1) sels.length ∧
      ∀ ev ∈ (exportLoop slice src dir base pad total sels done).2.2.1,
        ev.phase = "export" ∧ ev.total = total := by
  intro sels
  induction sels with
  | nil =>
      intro done
      exact ⟨rfl, fun ev hev => absurd hev (List.not_mem_nil ev)⟩
  | cons sel rest ih =>
      intro done
      obtain ⟨ihmap, ihmem⟩ := ih (done + 1)
      constructor
      · simp only [exportLoop, List.map_cons, ihmap, List.length_cons]
        rfl
      · intro ev hev
        simp only [exportLoop] at hev
        rcases List.mem_cons.1 hev with rfl | hev
        · exact ⟨rfl, rfl⟩
        · exact ihmem ev hev

/-- The slice invocations of the export loop are exactly the selections
paired with their deterministically constructed output paths. -/
theorem exportLoop_calls (slice : String → ℚ → ℚ → String → Bool × String)
    (src dir base : String) (pad total : ℕ) :
    ∀ (sels : List (ℕ × ℚ × ℚ)) (done : ℕ),
      (exportLoop slice src dir base pad total sels done).2.2.2 =
        sels.map fun sel => (sel.2.1, sel.2.2,
          pathJoin dir (sceneFileName base pad (sel.1 + 1))) := by
  intro sels
  induction sels with
  | nil => intro done; rfl
  | cons sel rest ih =>
      intro done
      simp only [exportLoop, List.map_cons, ih (done + 1)]

/-- The worker trace ends with its unique `finished` emission, after every
progress emission. -/
theorem workerRun_terminal {ev α : Type} (job : List ev × Except String α) :
    (workerRun job).getLast? = some (.finished job.2) ∧
    (workerRun job).countP isTerminal = 1 := by
  constructor
  · rw [workerRun, List.getLast?_concat]
  · rw [workerRun, List.countP_append]
    have h0 : (job.1.map (@TraceItem.progress ev α)).countP isTerminal
        = 0 := by
      rw [List.countP_eq_zero]
      intro t ht
      obtain ⟨e, -, rfl⟩ := List.mem_map.1 ht
      simp [isTerminal]
    rw [h0]
    rfl

/-! ## Claim C2 — the export job never fails as a whole -/

/-- C2: the export job body returns a success record even when individual
transcode invocations fail: `requested` equals the number of selections,
`failed` equals the length of the errors list, `ok + failed = requested`,
each error entry carries the 1-based ordinal, the bounds and the diagnostic
of a failed item, and when every item fails `ok = 0` and
`failed = requested`. -/
theorem exportJob_partial_failure_spec
    (slice : String → ℚ → ℚ → String → Bool × String)
    (scene_count : ℕ) (basename src_file : String)
    (selections : List (ℕ × ℚ × ℚ)) (duration : ℚ) (dir : String)
    (elapsed : ℚ) :
    (exportJob slice scene_count basename src_file selections duration dir
        elapsed).2.2.requested = selections.length ∧
    (exportJob slice scene_count basename src_file selections duration dir
        elapsed).2.2.failed =
      (exportJob slice scene_count basename src_file selections duration dir
        elapsed).2.2.errors.length ∧
    (exportJob slice scene_count basename src_file selections duration dir
        elapsed).2.2.ok +
      (exportJob slice scene_count basename src_file selections duration dir
        elapsed).2.2.failed = selections.length ∧
    (∀ en ∈ (exportJob slice scene_count basename src_file selections
        duration dir elapsed).2.2.errors,
      ∃ sel ∈ selections,
        slice src_file sel.2.1 sel.2.2
            (pathJoin dir (sceneFileName basename (exportPad scene_count)
              (sel.1 + 1))) = (false, en.2.2.2) ∧
        en = (sel.1 + 1, sel.2.1, sel.2.2, en.2.2.2)) ∧
    ((∀ sel ∈ selections, (slice src_file sel.2.1 sel.2.2
        (pathJoin dir (sceneFileName basename (exportPad scene_count)
          (sel.1 + 1)))).1 = false) →
      (exportJob slice scene_count basename src_file selections duration dir
          elapsed).2.2.ok = 0 ∧
      (exportJob slice scene_count basename src_file selections duration dir
          elapsed).2.2.failed = selections.length) := by
  refine ⟨rfl, rfl, ?_, ?_, ?_⟩
  · exact exportLoop_counts slice src_file dir basename
      (exportPad scene_count) selections.length selections 0
  · exact exportLoop_errors slice src_file dir basename
      (exportPad scene_count) selections.length selections 0
  · intro hall
    have h0 := exportLoop_ok_zero slice src_file dir basename
      (exportPad scene_count) selections.length selections 0 hall
    have hc := exportLoop_counts slice src_file dir basename
      (exportPad scene_count) selections.length selections 0
    constructor
    · exact h0
    · show (exportLoop slice src_file dir basename (exportPad scene_count)
        selections.length selections 0).2.1.length = selections.length
      omega

/-- Witness for C2: with a slice helper that always fails, exporting two
selections yields `ok = 0` and `failed = requested = 2`. -/
theorem exportJob_partial_failure_spec_witness :
    (exportJob (fun _ _ _ _ => (false, "boom")) 3 "clip" "src.mp4"
        [(0, 0, 1), (1, 1, 2)] 10 "exports" 1).2.2.ok = 0 ∧
    (exportJob (fun _ _ _ _ => (false, "boom")) 3 "clip" "src.mp4"
        [(0, 0, 1), (1, 1, 2)] 10 "exports" 1).2.2.failed = 2 :=
  (exportJob_partial_failure_spec (fun _ _ _ _ => (false, "boom")) 3 "clip"
    "src.mp4" [(0, 0, 1), (1, 1, 2)] 10 "exports" 1).2.2.2.2
    (fun _ _ => rfl)

/-! ## Claim C8 — export progress reaches completion before the outcome -/

/-- C8: the export job emits a step event carrying `done/total` after every
item regardless of outcome — the full event list runs `done = 0, 1, …, n`
with `total = n` throughout, so the final progress event has
`done = total = n` — and in the worker trace every progress emission
precedes the single terminal outcome, which is last. -/
theorem exportJob_progress_spec
    (slice : String → ℚ → ℚ → String → Bool × String)
    (scene_count : ℕ) (basename src_file : String)
    (selections : List (ℕ × ℚ × ℚ)) (duration : ℚ) (dir : String)
    (elapsed : ℚ) :
    (exportJob slice scene_count basename src_file selections duration dir
        elapsed).1.map ExportEv.done =
      List.range (selections.length + 1) ∧
    (∀ ev ∈ (exportJob slice scene_count basename src_file selections
        duration dir elapsed).1,
      ev.phase = "export" ∧ ev.total = selections.length) ∧
    (∃ ev, (exportJob slice scene_count basename src_file selections
        duration dir elapsed).1.getLast? = some ev ∧
      ev.done = selections.length ∧ ev.total = selections.length) ∧
    (workerRun ((exportJob slice scene_count basename src_file selections
          duration dir elapsed).1,
        Except.ok (exportJob slice scene_count basename src_file selections
          duration dir elapsed).2.2)).getLast? =
      some (.finished (.ok (exportJob slice scene_count basename src_file
        selections duration dir elapsed).2.2)) ∧
    (workerRun ((exportJob slice scene_count basename src_file selections
          duration dir elapsed).1,
        Except.ok (exportJob slice scene_count basename src_file selections
          duration dir elapsed).2.2)).countP isTerminal = 1 := by
  obtain ⟨hmap, hmem⟩ := exportLoop_events slice src_file dir basename
    (exportPad scene_count) selections.length selections 0
  have hfullmap : (exportJob slice scene_count basename src_file selections
      duration dir elapsed).1.map ExportEv.done =
      List.range (selections.length + 1) := by
    simp only [exportJob, List.map_cons, hmap]
    rw [List.range_eq_range']
    rfl
  refine ⟨hfullmap, ?_, ?_, (workerRun_terminal _).1,
    (workerRun_terminal _).2⟩
  · intro ev hev
    simp only [exportJob] at hev
    rcases List.mem_cons.1 hev with rfl | hev
    · exact ⟨rfl, rfl⟩
    · exact hmem ev hev
  · have hlast : ((exportJob slice scene_count basename src_file selections
        duration dir elapsed).1.map ExportEv.done).getLast? =
        some selections.length := by
      rw [hfullmap, List.range_succ, List.getLast?_concat]
    rw [List.getLast?_map] at hlast
    rcases hev : (exportJob slice scene_count basename src_file selections
        duration dir elapsed).1.getLast? with - | ev
    · rw [hev] at hlast; exact absurd hlast (by simp)
    · rw [hev] at hlast
      refine ⟨ev, rfl, Option.some.inj hlast, ?_⟩
      exact ((by
        intro e he
        simp only [exportJob] at he
        rcases List.mem_cons.1 he with rfl | he
        · exact ⟨rfl, rfl⟩
        · exact hmem e he :
          ∀ e ∈ (exportJob slice scene_count basename src_file selections
            duration dir elapsed).1, e.phase = "export" ∧
              e.total = selections.length)
        ev (List.mem_of_mem_getLast? hev)).2

/-- Witness for C8 at a concrete one-selection export whose item fails: the
event counters still run to completion. -/
theorem exportJob_progress_spec_witness :
    (exportJob (fun _ _ _ _ => (false, "boom")) 3 "clip" "src.mp4"
        [(0, 0, 1)] 10 "exports" 1).1.map ExportEv.done = List.range 2 :=
  (exportJob_progress_spec (fun _ _ _ _ => (false, "boom")) 3 "clip"
    "src.mp4" [(0, 0, 1)] 10 "exports" 1).1

/-! ## Claim C7 — detection job events and outcome -/

/-- C7 counterexample: a detection run whose collaborator raises emits the
start event but no end event, so the claim that every run emits a single
start and a single end progress event fails on the failing run. -/
theorem detectJob_failure_omits_end_event :
    (detectJob "v0.6+" (.error "VideoOpenFailure") 27 1).1 =
      [⟨"detect", "start", none⟩] ∧
    (detectJob "v0.6+" (.error "VideoOpenFailure") 27 1).1.countP
      (fun ev => ev.mode == "end") = 0 ∧
    (detectJob "v0.6+" (.error "VideoOpenFailure") 27 1).2 =
      .error "VideoOpenFailure" :=
  ⟨rfl, rfl, rfl⟩

/-- C7 (amended): on a supported API, a successful detection run emits
exactly one start and one end progress event and returns
`Success {scenes, threshold, elapsed}`; a collaborator exception yields the
start event only and propagates as the job's terminal `Failure`; and in the
worker trace exactly one terminal event is emitted, last, either way. -/
theorem detectJob_events_outcome_spec (api : String)
    (h : api = "v0.6+" ∨ api = "v0.5")
    (collab : Except String (List (ℚ × ℚ))) (threshold elapsed : ℚ) :
    (∀ scenes, collab = .ok scenes →
      (detectJob api collab threshold elapsed).1 =
        [⟨"detect", "start", none⟩, ⟨"detect", "end", some elapsed⟩] ∧
      (detectJob api collab threshold elapsed).2 =
        .ok ⟨scenes, threshold, elapsed⟩) ∧
    (∀ e, collab = .error e →
      (detectJob api collab threshold elapsed).1 =
        [⟨"detect", "start", none⟩] ∧
      (detectJob api collab threshold elapsed).2 = .error e) ∧
    (workerRun (detectJob api collab threshold elapsed)).countP isTerminal
      = 1 ∧
    (workerRun (detectJob api collab threshold elapsed)).getLast? =
      some (.finished (detectJob api collab threshold elapsed).2) := by
  refine ⟨?_, ?_, (workerRun_terminal _).2, (workerRun_terminal _).1⟩
  · rintro scenes rfl
    rw [detectJob, if_pos h]
    exact ⟨rfl, rfl⟩
  · rintro e rfl
    rw [detectJob, if_pos h]
    exact ⟨rfl, rfl⟩

/-- Witness for C7 at a successful run on the legacy API. -/
theorem detectJob_events_outcome_spec_witness :
    (detectJob "v0.5" (.ok [(0, 5)]) 27 2).1 =
      [⟨"detect", "start", none⟩, ⟨"detect", "end", some 2⟩] ∧
    (detectJob "v0.5" (.ok [(0, 5)]) 27 2).2 = .ok ⟨[(0, 5)], 27, 2⟩ :=
  (detectJob_events_outcome_spec "v0.5" (Or.inr rfl) (.ok [(0, 5)]) 27 2).1
    [(0, 5)] rfl

/-! ## Claim C6 — the run logger -/

/-- C6 counterexample: a pre-existing structured store that is corrupt but
still parses — here a truthy non-array JSON value — is not treated as
empty: the internal append raises, the swallowed failure leaves both stores
unchanged, and the new record is appended to neither store. -/
theorem logRun_corrupt_nonarray_appends_nothing :
    logRun ⟨some (some .truthyNonArray), some [], false, false, false⟩
        "rec" =
      (⟨some (some .truthyNonArray), some [], false, false, false⟩,
       some "AttributeError: append") :=
  rfl

/-- C6 (amended): the run logger never raises to its caller — every
internal failure is swallowed into the side diagnostic — and when no write
fails and the structured store is missing, unreadable, unparseable, or
parses to a falsy or array value, the store is treated as its readable
entries (empty when unreadable), and the new record is appended to both the
structured and the tabular store; only a truthy non-array parse aborts the
append, still without raising. -/
theorem logRun_spec (fs : LogFS) (entry : String)
    (hm : fs.mkdirFails = false) (hj : fs.jsonWriteFails = false)
    (hc : fs.csvWriteFails = false)
    (hshape : fs.jsonFile ≠ some (some .truthyNonArray)) :
    (logRun fs entry).2 = none ∧
    (logRun fs entry).1.jsonFile = some (some (.jarr
      ((match fs.jsonFile with
        | some (some (.jarr l)) => l
        | _ => []) ++ [entry]))) ∧
    (logRun fs entry).1.csvRows = some (fs.csvRows.getD [] ++ [entry]) := by
  rcases fs with ⟨jf, cr, mf, jwf, cwf⟩
  dsimp only at hm hj hc hshape
  subst hm; subst hj; subst hc
  rcases jf with - | jv
  · simp [logRun]
  rcases jv with - | v
  · simp [logRun]
  rcases v with l | - | -
  · simp [logRun]
  · exact absurd rfl hshape
  · simp [logRun]

/-- Witness for C6 with an unreadable structured store and a missing
tabular store: the record is appended to both. -/
theorem logRun_spec_witness :
    (logRun ⟨some none, none, false, false, false⟩ "rec").2 = none ∧
    (logRun ⟨some none, none, false, false, false⟩ "rec").1.jsonFile =
      some (some (.jarr ["rec"])) ∧
    (logRun ⟨some none, none, false, false, false⟩ "rec").1.csvRows =
      some ["rec"] :=
  logRun_spec ⟨some none, none, false, false, false⟩ "rec" rfl rfl rfl
    (by simp)

/-! ## Submission-path lemmas -/

/-- A detection submission that reports `started` has passed both
precondition checks and performed exactly the busy-state transition. -/
theorem detectScenes_started (st : AppState)
    (h : (detectScenes st).2 = .started) :
    detectScenes st = ({ st with
      status := "Detecting scenes... please wait.",
      progress_visible := true,
      detect_enabled := false,
      export_enabled := false,
      cursor_depth := st.cursor_depth + 1,
      detect_workers := st.detect_workers + 1,
      detect_timers := st.detect_timers + 1 }, .started) ∧
    st.current_file ≠ none ∧ st.scenedetect_available = true := by
  rw [detectScenes] at h
  split at h
  next => simp at h
  next h1 =>
    split at h
    next => simp at h
    next h2 =>
      refine ⟨?_, by simpa using h1, by simpa using h2⟩
      rw [detectScenes, if_neg h1, if_neg h2]

/-- An export submission that reports `started` has passed the whole
precondition ladder and performed exactly the busy-state transition. -/
theorem exportClips_started (st : AppState)
    (h : (exportClips st).2 = .started) :
    exportClips st = ({ st with
      status := "Exporting clips... please wait.",
      progress_visible := true,
      detect_enabled := false,
      export_enabled := false,
      cursor_depth := st.cursor_depth + 1,
      export_workers := st.export_workers + 1 }, .started) ∧
    st.current_file ≠ none ∧
    (!st.has_scenes || st.scene_rows.isEmpty) = false ∧
    st.ffmpeg_ok = true ∧
    ¬st.media_duration ≤ 0.05 ∧
    (collectValidSelections st.scene_rows st.media_duration).isEmpty
      = false ∧
    st.export_dir_writable = true := by
  rw [exportClips] at h
  split at h
  next => simp at h
  next h1 =>
    split at h
    next => simp at h
    next h2 =>
      split at h
      next => simp at h
      next h3 =>
        split at h
        next => simp at h
        next h4 =>
          split at h
          next => simp at h
          next h5 =>
            split at h
            next => simp at h
            next h6 =>
              refine ⟨?_, by simpa using h1, by simpa using h2,
                by simpa using h3, h4, by simpa using h5,
                by simpa using h6⟩
              rw [exportClips, if_neg h1, if_neg h2, if_neg h3, if_neg h4,
                if_neg h5, if_neg h6]

/-- The detection finish handler restores the triggers and preserves the
fields the submission preconditions read. -/
theorem onDetectFinished_fields (st : AppState)
    (p : Except String DetectPayload) :
    (onDetectFinished st p).current_file = st.current_file ∧
    (onDetectFinished st p).scenedetect_available =
      st.scenedetect_available ∧
    (onDetectFinished st p).detect_enabled = true ∧
    (onDetectFinished st p).export_enabled = st.current_file.isSome ∧
    (onDetectFinished st p).detect_workers = st.detect_workers - 1 := by
  rcases p with e | pl
  · exact ⟨rfl, rfl, rfl, rfl, rfl⟩
  · rcases hse : pl.scenes.isEmpty with - | - <;>
      simp [onDetectFinished, hse]

/-- The export finish handler restores the triggers and preserves the
fields the submission preconditions read. -/
theorem onExportFinished_fields (st : AppState)
    (p : Except String ExportResult) :
    (onExportFinished st p).current_file = st.current_file ∧
    (onExportFinished st p).has_scenes = st.has_scenes ∧
    (onExportFinished st p).scene_rows = st.scene_rows ∧
    (onExportFinished st p).ffmpeg_ok = st.ffmpeg_ok ∧
    (onExportFinished st p).media_duration = st.media_duration ∧
    (onExportFinished st p).export_dir_writable =
      st.export_dir_writable ∧
    (onExportFinished st p).detect_enabled = true ∧
    (onExportFinished st p).export_enabled = true ∧
    (onExportFinished st p).export_workers = st.export_workers - 1 := by
  rcases p with e | r
  · exact ⟨rfl, rfl, rfl, rfl, rfl, rfl, rfl, rfl, rfl⟩
  · exact ⟨rfl, rfl, rfl, rfl, rfl, rfl, rfl, rfl, rfl⟩

/-! ## Claim C1 — single-flight submission -/

/-- C1 counterexample: with one worker of the kind already live (triggers
disabled, busy state shown), calling the submission path again does not
fail with `AlreadyRunning` — no such rejection exists in the code — and
starts a second worker of that kind. -/
theorem submit_while_active_not_rejected :
    (detectScenes busyDetectState).2 = .started ∧
    (detectScenes busyDetectState).2 ≠ .alreadyRunning ∧
    (detectScenes busyDetectState).1.detect_workers = 2 ∧
    (exportClips busyExportState).2 = .started ∧
    (exportClips busyExportState).2 ≠ .alreadyRunning ∧
    (exportClips busyExportState).1.export_workers = 2 := by
  have hexp : exportClips busyExportState = ({ busyExportState with
      status := "Exporting clips... please wait.",
      progress_visible := true,
      detect_enabled := false,
      export_enabled := false,
      cursor_depth := busyExportState.cursor_depth + 1,
      export_workers := busyExportState.export_workers + 1 },
      .started) := by
    rw [exportClips]
    rw [if_neg (by simp [busyExportState, readyState])]
    rw [if_neg (by simp [busyExportState, readyState])]
    rw [if_neg (by simp [busyExportState, readyState])]
    rw [if_neg (by norm_num [busyExportState, readyState])]
    rw [if_neg (by
      have hsel : collectValidSelections busyExportState.scene_rows
          busyExportState.media_duration = [(0, 0, 5)] := by
        norm_num [busyExportState, readyState, collectValidSelections,
          selFilter, clampRange, List.enum, List.enumFrom, min_def,
          max_def, List.filterMap_cons, List.filterMap_nil]
      rw [hsel]
      simp)]
    rw [if_neg (by simp [busyExportState, readyState])]
  refine ⟨rfl, by decide, rfl, ?_, ?_, ?_⟩
  · rw [hexp]
  · rw [hexp]; simp
  · rw [hexp]; rfl

/-- C1 (amended): no submission path ever returns `AlreadyRunning`;
re-entrancy is prevented only by the triggers — a submission that starts
disables both triggers synchronously and increments the live-worker count
of its kind (so a direct call while one is active starts a second worker),
and after the finish handler of the started job runs, a subsequent
submission of that kind starts again. -/
theorem submit_singleflight_via_triggers (st : AppState) :
    (detectScenes st).2 ≠ .alreadyRunning ∧
    (exportClips st).2 ≠ .alreadyRunning ∧
    ((detectScenes st).2 = .started →
      (detectScenes st).1.detect_enabled = false ∧
      (detectScenes st).1.export_enabled = false ∧
      (detectScenes st).1.detect_workers = st.detect_workers + 1 ∧
      ∀ payload, (detectScenes (onDetectFinished (detectScenes st).1
        payload)).2 = .started) ∧
    ((exportClips st).2 = .started →
      (exportClips st).1.detect_enabled = false ∧
      (exportClips st).1.export_enabled = false ∧
      (exportClips st).1.export_workers = st.export_workers + 1 ∧
      ∀ payload, (exportClips (onExportFinished (exportClips st).1
        payload)).2 = .started) := by
  refine ⟨?_, ?_, ?_, ?_⟩
  · rw [detectScenes]
    split
    · simp
    · split <;> simp
  · rw [exportClips]
    split
    · simp
    · split
      · simp
      · split
        · simp
        · split
          · simp
          · split
            · simp
            · split <;> simp
  · intro hstart
    obtain ⟨heq, h1, h2⟩ := detectScenes_started st hstart
    refine ⟨by rw [heq], by rw [heq], by rw [heq], ?_⟩
    intro payload
    have hf := onDetectFinished_fields (detectScenes st).1 payload
    have hcf : (onDetectFinished (detectScenes st).1
        payload).current_file = st.current_file := by
      rw [hf.1, heq]
    have hav : (onDetectFinished (detectScenes st).1
        payload).scenedetect_available = true := by
      rw [hf.2.1, heq]
      exact h2
    rw [detectScenes, if_neg (by rw [hcf]; simp [h1]),
      if_neg (by rw [hav]; simp)]
  · intro hstart
    obtain ⟨heq, h1, h2, h3, h4, h5, h6⟩ := exportClips_started st hstart
    refine ⟨by rw [heq], by rw [heq], by rw [heq], ?_⟩
    intro payload
    have hf := onExportFinished_fields (exportClips st).1 payload
    have e1 : (onExportFinished (exportClips st).1
        payload).current_file = st.current_file := by rw [hf.1, heq]
    have e2 : (onExportFinished (exportClips st).1
        payload).has_scenes = st.has_scenes := by rw [hf.2.1, heq]
    have e3 : (onExportFinished (exportClips st).1
        payload).scene_rows = st.scene_rows := by rw [hf.2.2.1, heq]
    have e4 : (onExportFinished (exportClips st).1
        payload).ffmpeg_ok = st.ffmpeg_ok := by rw [hf.2.2.2.1, heq]
    have e5 : (onExportFinished (exportClips st).1
        payload).media_duration = st.media_duration := by
      rw [hf.2.2.2.2.1, heq]
    have e6 : (onExportFinished (exportClips st).1
        payload).export_dir_writable = st.export_dir_writable := by
      rw [hf.2.2.2.2.2.1, heq]
    rw [exportClips, if_neg (by rw [e1]; simp [h1]),
      if_neg (by rw [e2, e3]; simp [h2]),
      if_neg (by rw [e4]; simp [h3]),
      if_neg (by rw [e5]; exact h4),
      if_neg (by rw [e3, e5]; simp [h5]),
      if_neg (by rw [e6]; simp [h6])]

/-- Witness for C1 at the idle ready state: submission starts, disables the
trigger, and can start again after the finish handler runs. -/
theorem submit_singleflight_via_triggers_witness :
    (detectScenes readyState).1.detect_enabled = false ∧
    (detectScenes (onDetectFinished (detectScenes readyState).1
      (.error "boom"))).2 = .started := by
  have h := (submit_singleflight_via_triggers readyState).2.2.1 rfl
  exact ⟨h.1, h.2.2.2 (.error "boom")⟩

/-! ## Claim C5 — the watchdog timer -/

/-- C5 counterexample: an export submission arms no watchdog timer at all,
and the detection watchdog's firing action is unconditional — it rewrites
the caller-visible state even when the job's outcome has already been
delivered — so the claim fails on the export kind and on the
fires-only-if-undelivered condition. -/
theorem export_submission_arms_no_watchdog :
    (exportClips readyState).2 = .started ∧
    (exportClips readyState).1.export_timers = 0 ∧
    (exportClips readyState).1.detect_timers = 0 ∧
    (detectWatchdogFire (onDetectFinished (detectScenes readyState).1
        (.ok ⟨[(0, 5)], 27, 1⟩))).status = "Detection timed out." := by
  have hexp : (exportClips readyState).2 = .started ∧
      (exportClips readyState).1.export_timers = 0 ∧
      (exportClips readyState).1.detect_timers = 0 := by
    rw [exportClips]
    rw [if_neg (by simp [readyState])]
    rw [if_neg (by simp [readyState])]
    rw [if_neg (by simp [readyState])]
    rw [if_neg (by norm_num [readyState])]
    rw [if_neg (by
      have hsel : collectValidSelections readyState.scene_rows
          readyState.media_duration = [(0, 0, 5)] := by
        norm_num [readyState, collectValidSelections, selFilter,
          clampRange, List.enum, List.enumFrom, min_def, max_def,
          List.filterMap_cons, List.filterMap_nil]
      rw [hsel]
      simp)]
    rw [if_neg (by simp [readyState])]
    exact ⟨rfl, rfl, rfl⟩
  exact ⟨hexp.1, hexp.2.1, hexp.2.2, rfl⟩

/-- C5 (amended): only detection submissions arm a watchdog (exactly one
per started submission; export arms none); its firing re-enables the
triggers and clears the busy indicator without touching the live workers;
firing is idempotent on the restore-UI state (for the cursor depth a single
submission produces); and a detection that later completes successfully
with scenes still appends its run-log entry exactly once. -/
theorem watchdog_spec (st : AppState) :
    ((detectScenes st).2 = .started →
      (detectScenes st).1.detect_timers = st.detect_timers + 1) ∧
    ((exportClips st).2 = .started →
      (exportClips st).1.export_timers = st.export_timers ∧
      (exportClips st).1.detect_timers = st.detect_timers) ∧
    (detectWatchdogFire st).detect_enabled = true ∧
    (detectWatchdogFire st).export_enabled = st.current_file.isSome ∧
    (detectWatchdogFire st).progress_visible = false ∧
    (detectWatchdogFire st).detect_workers = st.detect_workers ∧
    (detectWatchdogFire st).export_workers = st.export_workers ∧
    (st.cursor_depth ≤ 1 →
      detectWatchdogFire (detectWatchdogFire st) = detectWatchdogFire st) ∧
    (∀ p : DetectPayload, p.scenes.isEmpty = false →
      (onDetectFinished st (.ok p)).detect_log_count =
        st.detect_log_count + 1) := by
  refine ⟨?_, ?_, rfl, rfl, rfl, rfl, rfl, ?_, ?_⟩
  · intro hstart
    rw [(detectScenes_started st hstart).1]
  · intro hstart
    rw [(exportClips_started st hstart).1]
    exact ⟨rfl, rfl⟩
  · intro hc
    simp only [detectWatchdogFire]
    congr 1
    omega
  · intro p hp
    simp [onDetectFinished, hp]

/-- Witness for C5 at the ready state: a detection submission arms one
timer, firing is idempotent there, and a successful completion with one
scene logs once. -/
theorem watchdog_spec_witness :
    (detectScenes readyState).1.detect_timers =
      readyState.detect_timers + 1 ∧
    detectWatchdogFire (detectWatchdogFire readyState) =
      detectWatchdogFire readyState ∧
    (onDetectFinished readyState
        (.ok ⟨[(0, 5)], 27, 1⟩)).detect_log_count =
      readyState.detect_log_count + 1 :=
  ⟨(watchdog_spec readyState).1 rfl,
   (watchdog_spec readyState).2.2.2.2.2.2.2.1 (by norm_num [readyState]),
   (watchdog_spec readyState).2.2.2.2.2.2.2.2 ⟨[(0, 5)], 27, 1⟩ rfl⟩

/-! ## Decimal digit lemmas for export filenames -/

/-- Leading zeros do not change the value of a big-endian digit list. -/
theorem ofDigitsBE_append_zeros :
    ∀ (k : ℕ) (l : List ℕ),
      ofDigitsBE (List.replicate k 0 ++ l) = ofDigitsBE l
  | 0, _ => rfl
  | k + 1, l => by
      rw [List.replicate_succ, List.cons_append]
      show 0 * 10 ^ (List.replicate k 0 ++ l).length +
        ofDigitsBE (List.replicate k 0 ++ l) = ofDigitsBE l
      rw [Nat.zero_mul, Nat.zero_add, ofDigitsBE_append_zeros k l]

/-- Appending a digit multiplies the value by ten and adds the digit. -/
theorem ofDigitsBE_concat :
    ∀ (l : List ℕ) (d : ℕ), ofDigitsBE (l ++ [d]) = 10 * ofDigitsBE l + d
  | [], d => by simp [ofDigitsBE]
  | x :: t, d => by
      rw [List.cons_append]
      show x * 10 ^ (t ++ [d]).length + ofDigitsBE (t ++ [d]) =
        10 * (x * 10 ^ t.length + ofDigitsBE t) + d
      rw [ofDigitsBE_concat t d, List.length_append, List.length_singleton,
        pow_succ]
      ring

/-- The big-endian value of the reverse of a little-endian digit list. -/
theorem ofDigitsBE_reverse :
    ∀ l : List ℕ, ofDigitsBE l.reverse = Nat.ofDigits 10 l
  | [] => by simp [ofDigitsBE, Nat.ofDigits_nil]
  | d :: t => by
      rw [List.reverse_cons, ofDigitsBE_concat, ofDigitsBE_reverse t,
        Nat.ofDigits_cons]
      ring

/-- The digit string of `n` evaluates back to `n`. -/
theorem ofDigitsBE_numStr (n : ℕ) : ofDigitsBE (numStr n) = n := by
  rw [numStr]
  split
  next h => subst h; rfl
  next h => rw [ofDigitsBE_reverse, Nat.ofDigits_digits]

/-- The zero-padded digit string of `n` evaluates back to `n`. -/
theorem ofDigitsBE_padDigits (pad n : ℕ) :
    ofDigitsBE (padDigits pad n) = n := by
  rw [padDigits, ofDigitsBE_append_zeros, ofDigitsBE_numStr]

/-- Zero-padding to a common width is injective. -/
theorem padDigits_injective (pad n m : ℕ)
    (h : padDigits pad n = padDigits pad m) : n = m := by
  have := congrArg ofDigitsBE h
  rwa [ofDigitsBE_padDigits, ofDigitsBE_padDigits] at this

/-- Every digit of `numStr` is a decimal digit. -/
theorem numStr_lt_ten (n : ℕ) : ∀ d ∈ numStr n, d < 10 := by
  intro d hd
  rw [numStr] at hd
  split at hd
  · rcases List.mem_singleton.1 hd with rfl; norm_num
  · exact Nat.digits_lt_base (by norm_num) (List.mem_reverse.1 hd)

/-- Every digit of a zero-padded digit string is a decimal digit. -/
theorem padDigits_lt_ten (pad n : ℕ) : ∀ d ∈ padDigits pad n, d < 10 := by
  intro d hd
  rw [padDigits, List.mem_append] at hd
  rcases hd with hd | hd
  · rcases List.eq_of_mem_replicate hd with rfl; norm_num
  · exact numStr_lt_ten n d hd

/-- Length of the digit string of `n`. -/
theorem numStr_length (n : ℕ) :
    (numStr n).length = if n = 0 then 1 else Nat.log 10 n + 1 := by
  rw [numStr]
  split
  · rfl
  next h => rw [List.length_reverse, Nat.digits_len 10 n (by norm_num) h]

/-- Digit-string lengths are monotone. -/
theorem numStr_length_mono {n m : ℕ} (h : n ≤ m) :
    (numStr n).length ≤ (numStr m).length := by
  rw [numStr_length, numStr_length]
  split
  · split
    · exact le_rfl
    · omega
  next hn =>
    split
    next hm => omega
    next hm =>
      have := @Nat.log_mono_right 10 n m h
      omega

/-- Length of a zero-padded digit string. -/
theorem padDigits_length (pad n : ℕ) :
    (padDigits pad n).length = max pad (numStr n).length := by
  rw [padDigits, List.length_append, List.length_replicate]
  omega

/-- A big-endian digit list is bounded by the power of ten of its length. -/
theorem ofDigitsBE_lt_pow :
    ∀ l : List ℕ, (∀ d ∈ l, d < 10) → ofDigitsBE l < 10 ^ l.length
  | [], _ => by norm_num [ofDigitsBE]
  | d :: t, h => by
      have hd : d < 10 := h d (List.mem_cons_self d t)
      have ht := ofDigitsBE_lt_pow t fun x hx =>
        h x (List.mem_cons_of_mem d hx)
      show d * 10 ^ t.length + ofDigitsBE t < 10 ^ (t.length + 1)
      calc d * 10 ^ t.length + ofDigitsBE t
          < d * 10 ^ t.length + 10 ^ t.length := by omega
        _ = (d + 1) * 10 ^ t.length := by ring
        _ ≤ 10 * 10 ^ t.length := Nat.mul_le_mul_right _ (by omega)
        _ = 10 ^ (t.length + 1) := by ring

/-- Equal-length decimal digit lists compare lexicographically as their
values do. -/
theorem lex_of_ofDigitsBE_lt :
    ∀ (l₁ l₂ : List ℕ), l₁.length = l₂.length →
      (∀ d ∈ l₁, d < 10) → (∀ d ∈ l₂, d < 10) →
      ofDigitsBE l₁ < ofDigitsBE l₂ → List.Lex (· < ·) l₁ l₂
  | [], [], _, _, _, hv => absurd hv (lt_irrefl 0)
  | [], _ :: _, hlen, _, _, _ => by simp at hlen
  | _ :: _, [], hlen, _, _, _ => by simp at hlen
  | d₁ :: t₁, d₂ :: t₂, hlen, h₁, h₂, hv => by
      have hlen' : t₁.length = t₂.length := by
        simpa using hlen
      have hv₁ : d₁ * 10 ^ t₁.length + ofDigitsBE t₁ <
          d₂ * 10 ^ t₂.length + ofDigitsBE t₂ := hv
      rcases lt_trichotomy d₁ d₂ with hd | hd | hd
      · exact List.Lex.rel hd
      · subst hd
        refine List.Lex.cons (lex_of_ofDigitsBE_lt t₁ t₂ hlen'
          (fun x hx => h₁ x (List.mem_cons_of_mem d₁ hx))
          (fun x hx => h₂ x (List.mem_cons_of_mem d₁ hx)) ?_)
        rw [hlen'] at hv₁
        omega
      · exfalso
        have hb₂ := ofDigitsBE_lt_pow t₂ fun x hx =>
          h₂ x (List.mem_cons_of_mem d₂ hx)
        have : (d₂ + 1) * 10 ^ t₂.length ≤ d₁ * 10 ^ t₁.length := by
          rw [hlen']
          exact Nat.mul_le_mul_right _ (by omega)
        have : d₂ * 10 ^ t₂.length + 10 ^ t₂.length ≤
            d₁ * 10 ^ t₁.length := by
          calc d₂ * 10 ^ t₂.length + 10 ^ t₂.length
              = (d₂ + 1) * 10 ^ t₂.length := by ring
            _ ≤ d₁ * 10 ^ t₁.length := this
        omega

/-- A lexicographic comparison survives prefixing both lists. -/
theorem lex_append_left_of {α : Type} {r : α → α → Prop}
    {l₁ l₂ : List α} (h : List.Lex r l₁ l₂) :
    ∀ p : List α, List.Lex r (p ++ l₁) (p ++ l₂)
  | [] => h
  | _ :: p => List.Lex.cons (lex_append_left_of h p)

/-- A lexicographic comparison of equal-length lists survives appending
arbitrary suffixes. -/
theorem lex_append_of_length_eq {α : Type} {r : α → α → Prop} :
    ∀ {l₁ l₂ : List α}, l₁.length = l₂.length → List.Lex r l₁ l₂ →
      ∀ s t : List α, List.Lex r (l₁ ++ s) (l₂ ++ t) := by
  intro l₁ l₂ hlen h
  induction h with
  | nil => simp at hlen
  | @cons a x y hxy ih =>
      intro s t
      exact List.Lex.cons (ih (by simpa using hlen) s t)
  | @rel a₁ x a₂ y hr =>
      intro s t
      exact List.Lex.rel hr

/-- `digitChar` is strictly monotone on decimal digits. -/
theorem digitChar_lt :
    ∀ d, d < 10 → ∀ e, e < 10 → d < e → digitChar d < digitChar e := by
  decide

/-- `digitChar` is injective on decimal digits. -/
theorem digitChar_inj :
    ∀ d, d < 10 → ∀ e, e < 10 → digitChar d = digitChar e → d = e := by
  decide

/-- Mapping digits to characters preserves lexicographic comparisons. -/
theorem lex_map_digitChar :
    ∀ {l₁ l₂ : List ℕ}, (∀ d ∈ l₁, d < 10) → (∀ d ∈ l₂, d < 10) →
      List.Lex (· < ·) l₁ l₂ →
      List.Lex (· < ·) (l₁.map digitChar) (l₂.map digitChar) := by
  intro l₁ l₂ h₁ h₂ h
  induction h with
  | nil => exact List.Lex.nil
  | @cons a x y hxy ih =>
      exact List.Lex.cons (ih
        (fun d hd => h₁ d (List.mem_cons_of_mem a hd))
        (fun d hd => h₂ d (List.mem_cons_of_mem a hd)))
  | @rel a₁ x a₂ y hr =>
      exact List.Lex.rel (digitChar_lt a₁
        (h₁ a₁ (List.mem_cons_self a₁ x)) a₂
        (h₂ a₂ (List.mem_cons_self a₂ y)) hr)

/-- Mapping digits to characters is injective on digit lists. -/
theorem map_digitChar_inj :
    ∀ l₁ l₂ : List ℕ, (∀ d ∈ l₁, d < 10) → (∀ d ∈ l₂, d < 10) →
      l₁.map digitChar = l₂.map digitChar → l₁ = l₂
  | [], [], _, _, _ => rfl
  | [], _ :: _, _, _, h => by simp at h
  | _ :: _, [], _, _, h => by simp at h
  | d₁ :: t₁, d₂ :: t₂, h₁, h₂, h => by
      rw [List.map_cons, List.map_cons] at h
      obtain ⟨hd, ht⟩ := List.cons.inj h
      rw [digitChar_inj d₁ (h₁ d₁ (List.mem_cons_self d₁ t₁)) d₂
          (h₂ d₂ (List.mem_cons_self d₂ t₂)) hd,
        map_digitChar_inj t₁ t₂
          (fun x hx => h₁ x (List.mem_cons_of_mem d₁ hx))
          (fun x hx => h₂ x (List.mem_cons_of_mem d₂ hx)) ht]

/-! ## Claim C4 — export filenames -/

/-- C4: the slice invocations of an export run target paths that are a pure
function of `(basename, ordinal, scene_count)` and the export directory —
independent of the slice helper, the probed duration and the wall clock, so
re-running with identical selections produces identical filenames; distinct
ordinals always get distinct filenames; and for ordinals up to the scene
count the zero-padding makes filenames sort lexicographically in ordinal
order. -/
theorem export_filenames_spec (basename : String) (scene_count : ℕ)
    (dir src_file : String) :
    (∀ slice selections duration elapsed,
      (exportJob slice scene_count basename src_file selections duration
          dir elapsed).2.1 =
        selections.map fun sel => (sel.2.1, sel.2.2,
          pathJoin dir (sceneFileName basename (exportPad scene_count)
            (sel.1 + 1)))) ∧
    (∀ n m : ℕ, n ≠ m →
      sceneFileName basename (exportPad scene_count) n ≠
        sceneFileName basename (exportPad scene_count) m) ∧
    (∀ n m : ℕ, n < m → m ≤ scene_count →
      List.Lex (· < ·)
        (sceneFileName basename (exportPad scene_count) n).data
        (sceneFileName basename (exportPad scene_count) m).data) := by
  refine ⟨?_, ?_, ?_⟩
  · intro slice selections duration elapsed
    exact exportLoop_calls slice src_file dir basename
      (exportPad scene_count) selections.length selections 0
  · intro n m hnm hne
    apply hnm
    have hdata : sceneFileChars basename.data (exportPad scene_count) n =
        sceneFileChars basename.data (exportPad scene_count) m :=
      congrArg String.data hne
    rw [sceneFileChars, sceneFileChars] at hdata
    simp only [List.append_assoc] at hdata
    have h1 := List.append_cancel_left hdata
    have h2 := List.append_cancel_left h1
    have h3 := List.append_cancel_right h2
    exact padDigits_injective (exportPad scene_count) n m
      (map_digitChar_inj _ _ (padDigits_lt_ten _ n)
        (padDigits_lt_ten _ m) h3)
  · intro n m hnm hm
    show List.Lex (· < ·)
      (sceneFileChars basename.data (exportPad scene_count) n)
      (sceneFileChars basename.data (exportPad scene_count) m)
    rw [sceneFileChars, sceneFileChars]
    simp only [List.append_assoc]
    have hlenn : (padDigits (exportPad scene_count) n).length =
        exportPad scene_count := by
      rw [padDigits_length]
      have : (numStr n).length ≤ exportPad scene_count :=
        le_trans (numStr_length_mono (le_of_lt (lt_of_lt_of_le hnm hm)))
          (le_max_right 2 _)
      omega
    have hlenm : (padDigits (exportPad scene_count) m).length =
        exportPad scene_count := by
      rw [padDigits_length]
      have : (numStr m).length ≤ exportPad scene_count :=
        le_trans (numStr_length_mono hm) (le_max_right 2 _)
      omega
    have hlex : List.Lex (· < ·)
        (padDigits (exportPad scene_count) n)
        (padDigits (exportPad scene_count) m) := by
      apply lex_of_ofDigitsBE_lt _ _ (by rw [hlenn, hlenm])
        (padDigits_lt_ten _ n) (padDigits_lt_ten _ m)
      rw [ofDigitsBE_padDigits, ofDigitsBE_padDigits]
      exact hnm
    apply lex_append_left_of
    apply lex_append_left_of
    exact lex_append_of_length_eq
      (by rw [List.length_map, List.length_map, hlenn, hlenm])
      (lex_map_digitChar (padDigits_lt_ten _ n) (padDigits_lt_ten _ m)
        hlex) _ _

/-- Witness for C4: with twelve scenes (pad two), ordinals 3 and 10 give
distinct filenames that sort in ordinal order. -/
theorem export_filenames_spec_witness :
    sceneFileName "clip" (exportPad 12) 3 ≠
      sceneFileName "clip" (exportPad 12) 10 ∧
    List.Lex (· < ·) (sceneFileName "clip" (exportPad 12) 3).data
      (sceneFileName "clip" (exportPad 12) 10).data :=
  ⟨(export_filenames_spec "clip" 12 "exports" "src.mp4").2.1 3 10
      (by norm_num),
   (export_filenames_spec "clip" 12 "exports" "src.mp4").2.2 3 10
      (by norm_num) (by norm_num)⟩

end AuraClip
